import Mathlib

/-!
Verification development for the csee measurement harness.

The repository drives a saturating TCP transfer across an impaired virtual
link and samples either kernel connection state (snapshot mode, in
initial.rs / revised.rs) or a shared atomic byte counter (counter mode, in
main.rs).  The definitions below are shallow embeddings of the relevant
source functions; external effects (shell commands, the kernel socket, the
clock) are abstracted as explicit inputs so every function is executable.
-/

set_option autoImplicit false

namespace Csee

/-- Errors are carried as plain strings, matching the source, where every
failure is an anyhow error built from a message (stderr text of a failed
command, or an I/O error rendered as text). -/
abbrev Err := String

/-- Measurement record pushed by the snapshot-mode trials.  Fields and their
meaning are taken from the uses in initial.rs lines 53-56 and revised.rs
lines 73-76: bytes_transferred is segcnt * 1460 and congestion_window is the
tcpi_snd_cwnd field of the kernel query. -/
structure Measurement where
  bytes_transferred : Nat
  congestion_window : Nat
  deriving DecidableEq, Repr

deriving instance DecidableEq for Except

/-- One iteration of the snapshot-mode transfer loop, as seen from the write
call.  The loop body (initial.rs lines 50-62, revised.rs lines 70-82,
identical in both) performs a non-blocking write_all of a 1460-byte frame:
either it succeeds, or it fails with WouldBlock (in which case the kernel
congestion-window probe runs and may itself fail), or it fails with any
other error.  The clock is abstracted away: a trace is the finite sequence
of write outcomes that occur before the 60-second deadline expires. -/
inductive WriteEvent where
  | ok : WriteEvent
  | wouldBlock (probe : Except Err Nat) : WriteEvent
  | fatal (e : Err) : WriteEvent
  deriving DecidableEq, Repr

/-- Shallow embedding of the snapshot-mode transfer loop shared verbatim by
simulate_old (initial.rs lines 48-63) and simulate_new (revised.rs lines
68-83).  State: segcnt counts completed fixed-size writes, ms accumulates
measurements.  On a successful write segcnt increments; on WouldBlock the
loop busy-waits 100 milliseconds, probes the kernel, and pushes a
Measurement of segcnt * 1460 bytes paired with the probed congestion
window; a failed probe or any other write error returns immediately via
the question-mark operator. -/
def transferLoop : List WriteEvent → Nat → List Measurement → Except Err (List Measurement)
  | [], _, ms => .ok ms
  | WriteEvent.ok :: rest, segcnt, ms => transferLoop rest (segcnt + 1) ms
  | WriteEvent.wouldBlock (Except.ok cwnd) :: rest, segcnt, ms =>
      transferLoop rest segcnt (ms ++ [⟨segcnt * 1460, cwnd⟩])
  | WriteEvent.wouldBlock (Except.error e) :: _, _, _ => .error e
  | WriteEvent.fatal e :: _, _, _ => .error e

/-- An event the loop absorbs without failing: a completed write, or a
would-block with a successful probe. -/
def goodEvent : WriteEvent → Bool
  | WriteEvent.ok => true
  | WriteEvent.wouldBlock (Except.ok _) => true
  | _ => false

/-- Number of would-block events with a successful probe in a trace; each
such event contributes exactly one Measurement. -/
def countWouldBlock (trace : List WriteEvent) : Nat :=
  (trace.filter (fun ev =>
    match ev with
    | WriteEvent.wouldBlock (Except.ok _) => true
    | _ => false)).length

/-- Trial deadline of the snapshot-mode loops: Duration::from_secs(60) in
initial.rs line 48 and revised.rs line 68. -/
def trialSecs : Nat := 60

/-- Bounded wait used on WouldBlock: Duration::from_millis(100) in
initial.rs line 52 and revised.rs line 72. -/
def wouldBlockWaitMillis : Nat := 100

/-- The fallible external steps performed by simulate_new (revised.rs lines
40-89), one constructor per call, with the parameters the source computes.
The numgen rule carries the modulus p.recip().round() and the remainder
p.recip().round() - 1.0 from revised.rs lines 51-58; floating-point values
are modelled as exact rationals, so recip and round are the exact rational
reciprocal and round-half-up (which agrees with the Rust round on the
positive values involved).  connectStream stands for the
TcpStream::connect plus set_nonblocking pair at lines 64-65. -/
inductive TrialCmd where
  | nftAddTable
  | nftAddChain
  | nftAddRuleCounter
  | nftAddRuleLenDrop
  | nftAddRuleNumgenDrop (modulus remainder : ℤ)
  | tcNetemDelayAdd (delay : ℚ)
  | connectStream
  | tcNetemDelayDel (delay : ℚ)
  | nftFlushRuleset
  deriving DecidableEq, Repr

/-- Run a sequence of fallible steps against an environment assigning each
step its outcome, propagating the first error; returns the outcome together
with the list of steps actually issued. -/
def runCmds (env : TrialCmd → Except Err Unit) :
    List TrialCmd → Except Err Unit × List TrialCmd
  | [] => (.ok (), [])
  | c :: rest =>
    match env c with
    | .error e => (.error e, [c])
    | .ok _ =>
      let r := runCmds env rest
      (r.1, c :: r.2)

/-- The setup steps of simulate_new (revised.rs lines 41-65) in source
order: nft table, chain, plain counter rule, oversize-drop rule, the
deterministic numgen drop rule with modulus round of the reciprocal of p,
the netem delay qdisc, and the connection attempt. -/
def simulateNewSetupCmds (r p : ℚ) : List TrialCmd :=
  [TrialCmd.nftAddTable, TrialCmd.nftAddChain, TrialCmd.nftAddRuleCounter,
   TrialCmd.nftAddRuleLenDrop,
   TrialCmd.nftAddRuleNumgenDrop (round p⁻¹) (round p⁻¹ - 1),
   TrialCmd.tcNetemDelayAdd r, TrialCmd.connectStream]

/-- Shallow embedding of simulate_new (revised.rs lines 40-90).  Every
fallible exec call is answered by env; the transfer loop consumes the given
trace of write outcomes.  The value is the trial result paired with the
full list of external steps issued, in order.  Note the source structure:
the teardown steps (tc qdisc del, nft flush ruleset, lines 84-88) run only
after the transfer loop has completed without error, because every earlier
failure returns through the question-mark operator. -/
def simulate_new (r p : ℚ) (env : TrialCmd → Except Err Unit)
    (trace : List WriteEvent) : Except Err (List Measurement) × List TrialCmd :=
  match runCmds env (simulateNewSetupCmds r p) with
  | (.error e, log) => (.error e, log)
  | (.ok _, log) =>
    match transferLoop trace 0 [] with
    | .error e => (.error e, log)
    | .ok ms =>
      match runCmds env [TrialCmd.tcNetemDelayDel r, TrialCmd.nftFlushRuleset] with
      | (.error e, log2) => (.error e, log ++ log2)
      | (.ok _, log2) => (.ok ms, log ++ log2)

/-- Trial environment in which every external step succeeds. -/
def envTrialOk : TrialCmd → Except Err Unit := fun _ => .ok ()

/-- Modulus of the deterministic loss filter rule: p.recip().round() from
revised.rs line 54, over exact rationals. -/
def lossFilterModulus (p : ℚ) : ℤ := round p⁻¹

/-- Semantics of one evaluation of the packet-filter rule
numgen inc mod N == k (revised.rs line 53).  Modelled from the spec: the
external facility is described in the spec (section 6) as a counter-based
rule keyed on numgen inc mod N == k; the per-rule generator yields
0, 1, ..., N-1 cyclically, so the j-th packet (0-indexed) evaluated by the
rule sees the value j mod N and is dropped exactly when that value is k. -/
def numgenDrop (N k j : Nat) : Bool := j % N == k

/-- The fallible steps of the topology builders init_new (revised.rs lines
14-38) and init_old (initial.rs lines 13-36), one constructor per call.
setnsEnter and bindListener stand for the setns calls and the
TcpListener::bind after the exec sequence; the spawned drain loop is not a
fallible step in the construction sequence. -/
inductive InitCmd where
  | netnsDelete (side : String)
  | netnsAdd (side : String)
  | linkAddVethPair
  | addrAdd (side addr : String)
  | linkSetUpMtu (side : String) (mtu : Nat)
  | ethtoolTsoOff (side : String)
  | setnsEnter (side : String)
  | bindListener (addr : String)
  deriving DecidableEq, Repr

/-- Whether a step is one of the initial namespace deletions. -/
def isDelete : InitCmd → Bool
  | InitCmd.netnsDelete _ => true
  | _ => false

/-- Run the builder steps.  The Bool flag marks a step whose error is
ignored (the source writes let _ = exec(..)); a failing required step stops
the run and propagates its error.  Returns the outcome and the list of
steps issued. -/
def runSteps (env : InitCmd → Except Err Unit) :
    List (InitCmd × Bool) → Except Err Unit × List InitCmd
  | [] => (.ok (), [])
  | (c, ign) :: rest =>
    match env c, ign with
    | .error e, false => (.error e, [c])
    | _, _ =>
      let r := runSteps env rest
      (r.1, c :: r.2)

/-- The steps of init_new (revised.rs lines 14-38) in source order.  The
two namespace deletions come first with errors ignored; every later step
propagates its error. -/
def initSteps : List (InitCmd × Bool) :=
  [(InitCmd.netnsDelete "server", true),
   (InitCmd.netnsDelete "client", true),
   (InitCmd.netnsAdd "server", false),
   (InitCmd.netnsAdd "client", false),
   (InitCmd.linkAddVethPair, false),
   (InitCmd.addrAdd "server" "10.1.1.1/24", false),
   (InitCmd.addrAdd "client" "10.1.1.2/24", false),
   (InitCmd.linkSetUpMtu "server" 1500, false),
   (InitCmd.linkSetUpMtu "client" 1500, false),
   (InitCmd.ethtoolTsoOff "server", false),
   (InitCmd.ethtoolTsoOff "client", false),
   (InitCmd.setnsEnter "server", false),
   (InitCmd.bindListener "10.1.1.1:1234", false),
   (InitCmd.setnsEnter "client", false)]

/-- Shallow embedding of init_new (revised.rs lines 14-38): run the builder
steps against an environment. -/
def init_new (env : InitCmd → Except Err Unit) : Except Err Unit × List InitCmd :=
  runSteps env initSteps

/-- Environment in which every step succeeds. -/
def envAllOk : InitCmd → Except Err Unit := fun _ => .ok ()

/-- Environment in which the namespace deletions fail (the namespaces do
not exist yet) and everything else succeeds. -/
def envDeleteFails : InitCmd → Except Err Unit := fun c =>
  if isDelete c then .error "No such file or directory" else .ok ()

/-- Environment in which creating the veth pair fails and everything else
succeeds. -/
def envLinkFails : InitCmd → Except Err Unit := fun c =>
  match c with
  | InitCmd.linkAddVethPair => .error "RTNETLINK answers: Operation not supported"
  | _ => .ok ()

/-- Atomic operations on the shared byte counter of the counter-mode trial
(main.rs simulate): add n is amount.fetch_add(n, AcqRel) on the transfer
path (line 118); sample is amount.swap(0, AcqRel) by the sampler thread
(line 111), which atomically takes the current value, records it as the
delta of the elapsed interval, and leaves zero.  These are the only two
accesses to the counter in the source, and each is a single atomic
instruction, so a concurrent execution is an arbitrary interleaving, i.e. a
list of these operations. -/
inductive CounterOp where
  | add (n : Nat)
  | sample
  deriving DecidableEq, Repr

/-- State of the shared counter together with the ghost history: recorded
holds the sampled interval deltas in order, total the sum of all bytes ever
added (the bytes transferred so far). -/
structure CounterState where
  counter : Nat
  recorded : List Nat
  total : Nat
  deriving DecidableEq, Repr

/-- Effect of one atomic operation on the counter state. -/
def counterStep (s : CounterState) : CounterOp → CounterState
  | CounterOp.add n => { s with counter := s.counter + n, total := s.total + n }
  | CounterOp.sample => { counter := 0, recorded := s.recorded ++ [s.counter], total := s.total }

/-- Run an interleaving from the initial state (counter zero, nothing
recorded, nothing transferred), as in main.rs line 102. -/
def runCounter (ops : List CounterOp) : CounterState :=
  ops.foldl counterStep ⟨0, [], 0⟩

/-- Number of sampler ticks in an interleaving. -/
def countSamples (ops : List CounterOp) : Nat :=
  (ops.filter (fun o =>
    match o with
    | CounterOp.sample => true
    | _ => false)).length

/-- CNT, the number of sampling windows of the counter-mode trial
(main.rs line 81): the sampler thread loop runs exactly CNT iterations,
each pushing one delta. -/
def CNT : Nat := 200

/-- LEN, the length in seconds of one sampling window (main.rs line 82). -/
def LEN : ℚ := 50 / 1000

/-- TOT, the trial duration in seconds (main.rs line 83). -/
def TOT : ℚ := (CNT : ℚ) * LEN

/-- Netem rule text shared by the add and del commands of the counter-mode
trial: main.rs lines 94-99 and 121-126 build both commands from the same
rendering of the impairment and quantity, differing only in the operation
word. -/
def netemRule (impairment quantity : String) : String :=
  "netem " ++ impairment ++ " " ++ quantity ++ " rate 1073741824bit"

/-- The full add command issued by apply (main.rs lines 94-99). -/
def applyCmd (impairment quantity : String) : String :=
  "tc qdisc add dev server root " ++ netemRule impairment quantity

/-- The full del command issued by remove (main.rs lines 121-126). -/
def removeCmd (impairment quantity : String) : String :=
  "tc qdisc del dev server root " ++ netemRule impairment quantity

/-- Shaping state of one endpoint: its root queueing discipline, or none.
Modelled from the spec: the external traffic-control facility (spec
sections 4.2 and 6) holds at most one root qdisc per device; an add
installs it and fails when one is already present, a del removes the
installed one. -/
abbrev QdiscState := Option String

/-- Modelled from the spec: installing a root qdisc on the external shaping
facility.  Fails when a root qdisc is already present. -/
def tcAdd (rule : String) : QdiscState → Except Err QdiscState
  | none => .ok (some rule)
  | some _ => .error "Error: Exclusivity flag on, cannot modify."

/-- Modelled from the spec: deleting the root qdisc named by the command.
Fails when nothing is installed or the installed rule is not the named
one. -/
def tcDel (rule : String) : QdiscState → Except Err QdiscState
  | some r => if r = rule then .ok none else .error "Error: Invalid qdisc."
  | none => .error "Error: Cannot delete qdisc with handle of zero."

/-- apply of the harness: install the rendered netem rule (main.rs lines
94-99). -/
def tcApply (impairment quantity : String) (s : QdiscState) : Except Err QdiscState :=
  tcAdd (netemRule impairment quantity) s

/-- remove of the harness: delete the rendered netem rule (main.rs lines
121-126). -/
def tcRemove (impairment quantity : String) (s : QdiscState) : Except Err QdiscState :=
  tcDel (netemRule impairment quantity) s

/-- The kernel connection-state record, field for field as declared in
tcp_info.rs lines 14-47 (eight one-byte fields followed by twenty-four
four-byte fields); machine integers are carried as Nat. -/
structure TcpInfo where
  tcpi_ca_state : Nat
  tcpi_state : Nat
  tcpi_retransmits : Nat
  tcpi_probes : Nat
  tcpi_backoff : Nat
  tcpi_options : Nat
  tcpi_snd_wscale : Nat
  tcpi_rcv_wscale : Nat
  tcpi_rto : Nat
  tcpi_ato : Nat
  tcpi_snd_mss : Nat
  tcpi_rcv_mss : Nat
  tcpi_unacked : Nat
  tcpi_sacked : Nat
  tcpi_lost : Nat
  tcpi_retrans : Nat
  tcpi_fackets : Nat
  tcpi_last_data_sent : Nat
  tcpi_last_ack_sent : Nat
  tcpi_last_data_recv : Nat
  tcpi_last_ack_recv : Nat
  tcpi_pmtu : Nat
  tcpi_rcv_ssthresh : Nat
  tcpi_rtt : Nat
  tcpi_rttvar : Nat
  tcpi_snd_ssthresh : Nat
  tcpi_snd_cwnd : Nat
  tcpi_advmss : Nat
  tcpi_reordering : Nat
  tcpi_rcv_rtt : Nat
  tcpi_rcv_space : Nat
  tcpi_total_retrans : Nat
  deriving DecidableEq, Repr

/-- Byte widths of the TcpInfo fields in declaration order (repr(C), no
padding: eight u8 fields then twenty-four u32 fields). -/
def tcpInfoFieldWidths : List Nat :=
  [1, 1, 1, 1, 1, 1, 1, 1] ++ List.replicate 24 4

/-- Expected size in bytes of the fixed-layout structure, the value passed
as the in-out length argument in tcp_info.rs line 53. -/
def tcpInfoSize : Nat := tcpInfoFieldWidths.sum

/-- What the getsockopt call hands back: its return code, the length the
kernel wrote through the in-out argument, and the buffer contents. -/
structure SockoptReply where
  ret : Int
  len : Nat
  buf : TcpInfo
  deriving DecidableEq, Repr

/-- Shallow embedding of TcpInfo::read (tcp_info.rs lines 50-67): the
source inspects only the getsockopt return code; when it is zero the
uninitialized buffer is assumed fully written and returned, and the length
the kernel wrote back through sock_len is never examined. -/
def TcpInfo.read (reply : SockoptReply) : Except Err TcpInfo :=
  if reply.ret = 0 then Except.ok reply.buf else Except.error "getsockopt failed"

/-- The all-zero record, standing for a buffer the kernel never wrote. -/
def zeroTcpInfo : TcpInfo :=
  ⟨0, 0, 0, 0, 0, 0, 0, 0, 0, 0, 0, 0, 0, 0, 0, 0,
   0, 0, 0, 0, 0, 0, 0, 0, 0, 0, 0, 0, 0, 0, 0, 0⟩

/-- The busy-wait loop of revised.rs line 72 and initial.rs line 52 (and,
with bound LEN, of the sampler in main.rs line 109): while elapsed is below
the bound, loop with an empty body.  elapsedAt n is the elapsed time
observed at the n-th poll of the clock, bound the wait bound in the same
unit, and the value is the number of clock polls the loop performs before
exiting (fuel caps the recursion and is irrelevant once large enough). -/
def spinPolls (elapsedAt : Nat → Nat) (bound : Nat) : Nat → Nat
  | 0 => 0
  | fuel + 1 =>
    if elapsedAt 0 < bound then spinPolls (fun i => elapsedAt (i + 1)) bound fuel + 1
    else 1

/-! Helper lemmas, shared across the claim theorems. -/

theorem runSteps_ignored_cons (env : InitCmd → Except Err Unit) (c : InitCmd)
    (rest : List (InitCmd × Bool)) :
    runSteps env ((c, true) :: rest) =
      ((runSteps env rest).1, c :: (runSteps env rest).2) := by
  cases h : env c <;> simp [runSteps, h]

theorem runSteps_required_ok (env : InitCmd → Except Err Unit) (c : InitCmd)
    (rest : List (InitCmd × Bool)) (h : env c = .ok ()) :
    runSteps env ((c, false) :: rest) =
      ((runSteps env rest).1, c :: (runSteps env rest).2) := by
  simp [runSteps, h]

theorem runSteps_required_err (env : InitCmd → Except Err Unit) (c : InitCmd)
    (rest : List (InitCmd × Bool)) (e : Err) (h : env c = .error e) :
    runSteps env ((c, false) :: rest) = (.error e, [c]) := by
  simp [runSteps, h]

theorem runSteps_congr (env env' : InitCmd → Except Err Unit) :
    ∀ steps : List (InitCmd × Bool),
      (∀ p ∈ steps, p.2 = false → env p.1 = env' p.1) →
      runSteps env steps = runSteps env' steps
  | [], _ => rfl
  | (c, ign) :: rest, h => by
    have hrest : runSteps env rest = runSteps env' rest :=
      runSteps_congr env env' rest (fun p hp => h p (List.mem_cons_of_mem _ hp))
    cases ign with
    | true => rw [runSteps_ignored_cons, runSteps_ignored_cons, hrest]
    | false =>
      have hc : env c = env' c := h (c, false) (List.mem_cons_self _ _) rfl
      cases he : env' c with
      | ok u =>
        cases u
        rw [runSteps_required_ok env c rest (hc.trans he),
          runSteps_required_ok env' c rest he, hrest]
      | error e =>
        rw [runSteps_required_err env c rest e (hc.trans he),
          runSteps_required_err env' c rest e he]

theorem runSteps_all_ok (env : InitCmd → Except Err Unit) :
    ∀ steps : List (InitCmd × Bool),
      (∀ p ∈ steps, p.2 = false → env p.1 = .ok ()) →
      (runSteps env steps).1 = .ok ()
  | [], _ => rfl
  | (c, ign) :: rest, h => by
    have hrest := runSteps_all_ok env rest (fun p hp => h p (List.mem_cons_of_mem _ hp))
    cases ign with
    | true => rw [runSteps_ignored_cons]; exact hrest
    | false =>
      have hc : env c = .ok () := h (c, false) (List.mem_cons_self _ _) rfl
      rw [runSteps_required_ok env c rest hc]; exact hrest

theorem runSteps_first_err (env : InitCmd → Except Err Unit) (c : InitCmd)
    (e : Err) (rest : List (InitCmd × Bool)) (hc : env c = .error e) :
    ∀ pre : List (InitCmd × Bool),
      (∀ p ∈ pre, p.2 = false → env p.1 = .ok ()) →
      runSteps env (pre ++ (c, false) :: rest) = (.error e, pre.map Prod.fst ++ [c])
  | [], _ => runSteps_required_err env c rest e hc
  | (c₀, ign) :: pre, h => by
    have hpre := runSteps_first_err env c e rest hc pre
      (fun p hp => h p (List.mem_cons_of_mem _ hp))
    cases ign with
    | true => rw [List.cons_append, runSteps_ignored_cons, hpre]; simp
    | false =>
      have hc₀ : env c₀ = .ok () := h (c₀, false) (List.mem_cons_self _ _) rfl
      rw [List.cons_append, runSteps_required_ok env c₀ _ hc₀, hpre]; simp

theorem transferLoop_good_run :
    ∀ (trace : List WriteEvent) (segcnt : Nat) (ms : List Measurement),
      (∀ ev ∈ trace, goodEvent ev = true) →
      ∃ out, transferLoop trace segcnt ms = .ok out ∧
        out.length = ms.length + countWouldBlock trace
  | [], segcnt, ms, _ => ⟨ms, rfl, by simp [countWouldBlock]⟩
  | ev :: rest, segcnt, ms, h => by
    have hrest := fun s m =>
      transferLoop_good_run rest s m (fun x hx => h x (List.mem_cons_of_mem _ hx))
    have hev : goodEvent ev = true := h ev (List.mem_cons_self _ _)
    match ev, hev with
    | WriteEvent.ok, _ =>
      obtain ⟨out, hout, hlen⟩ := hrest (segcnt + 1) ms
      exact ⟨out, by simpa [transferLoop] using hout, by
        simpa [countWouldBlock] using hlen⟩
    | WriteEvent.wouldBlock (Except.ok cwnd), _ =>
      obtain ⟨out, hout, hlen⟩ := hrest segcnt (ms ++ [⟨segcnt * 1460, cwnd⟩])
      refine ⟨out, by simpa [transferLoop] using hout, ?_⟩
      rw [hlen]
      simp [countWouldBlock, List.filter]
      omega

theorem transferLoop_good_then :
    ∀ (pre : List WriteEvent) (segcnt : Nat) (ms : List Measurement)
      (rest : List WriteEvent),
      (∀ ev ∈ pre, goodEvent ev = true) →
      ∃ segcnt' ms', transferLoop (pre ++ rest) segcnt ms = transferLoop rest segcnt' ms'
  | [], segcnt, ms, rest, _ => ⟨segcnt, ms, rfl⟩
  | ev :: pre, segcnt, ms, rest, h => by
    have hpre := fun s m =>
      transferLoop_good_then pre s m rest (fun x hx => h x (List.mem_cons_of_mem _ hx))
    have hev : goodEvent ev = true := h ev (List.mem_cons_self _ _)
    match ev, hev with
    | WriteEvent.ok, _ =>
      obtain ⟨s', m', hm⟩ := hpre (segcnt + 1) ms
      exact ⟨s', m', by simpa [transferLoop] using hm⟩
    | WriteEvent.wouldBlock (Except.ok cwnd), _ =>
      obtain ⟨s', m', hm⟩ := hpre segcnt (ms ++ [⟨segcnt * 1460, cwnd⟩])
      exact ⟨s', m', by simpa [transferLoop] using hm⟩

theorem transferLoop_invariant :
    ∀ (trace : List WriteEvent) (segcnt : Nat) (ms out : List Measurement),
      transferLoop trace segcnt ms = .ok out →
      (∀ m ∈ ms, 1460 ∣ m.bytes_transferred) →
      (∀ m ∈ ms, m.bytes_transferred ≤ segcnt * 1460) →
      List.Pairwise (fun a b => a.bytes_transferred ≤ b.bytes_transferred) ms →
      (∀ m ∈ out, 1460 ∣ m.bytes_transferred) ∧
        List.Pairwise (fun a b => a.bytes_transferred ≤ b.bytes_transferred) out
  | [], _, ms, out, hrun, hdvd, _, hmono => by
    cases hrun
    exact ⟨hdvd, hmono⟩
  | WriteEvent.ok :: rest, segcnt, ms, out, hrun, hdvd, hle, hmono => by
    refine transferLoop_invariant rest (segcnt + 1) ms out
      (by simpa [transferLoop] using hrun) hdvd (fun m hm => ?_) hmono
    exact le_trans (hle m hm) (by omega)
  | WriteEvent.wouldBlock (Except.ok cwnd) :: rest, segcnt, ms, out, hrun, hdvd, hle, hmono => by
    refine transferLoop_invariant rest segcnt (ms ++ [⟨segcnt * 1460, cwnd⟩]) out
      (by simpa [transferLoop] using hrun) ?_ ?_ ?_
    · intro m hm
      rcases List.mem_append.mp hm with hm | hm
      · exact hdvd m hm
      · simp at hm
        simp [hm]
    · intro m hm
      rcases List.mem_append.mp hm with hm | hm
      · exact hle m hm
      · simp at hm
        simp [hm]
    · rw [List.pairwise_append]
      refine ⟨hmono, by simp, ?_⟩
      intro a ha b hb
      simp at hb
      rw [hb]
      exact hle a ha

theorem runCounter_conservation :
    ∀ (ops : List CounterOp) (s : CounterState),
      s.recorded.sum + s.counter = s.total →
      ((ops.foldl counterStep s).recorded.sum + (ops.foldl counterStep s).counter
        = (ops.foldl counterStep s).total)
  | [], s, h => h
  | CounterOp.add n :: rest, s, h => by
    refine runCounter_conservation rest _ ?_
    simp [counterStep]
    omega
  | CounterOp.sample :: rest, s, h => by
    refine runCounter_conservation rest _ ?_
    simp [counterStep]
    omega

theorem runCounter_recorded_length :
    ∀ (ops : List CounterOp) (s : CounterState),
      (ops.foldl counterStep s).recorded.length
        = s.recorded.length + countSamples ops
  | [], s => by simp [countSamples]
  | CounterOp.add n :: rest, s => by
    rw [List.foldl_cons, runCounter_recorded_length rest]
    simp [counterStep, countSamples, List.filter]
  | CounterOp.sample :: rest, s => by
    rw [List.foldl_cons, runCounter_recorded_length rest]
    simp [counterStep, countSamples, List.filter]
    omega

theorem numgen_window (N k m : Nat) (hk : k < N) :
    ((Finset.Ico (m * N) (m * N + N)).filter (fun j => numgenDrop N k j = true)).card = 1 := by
  have hset : (Finset.Ico (m * N) (m * N + N)).filter (fun j => numgenDrop N k j = true)
      = {m * N + k} := by
    apply Finset.ext
    intro j
    simp only [Finset.mem_filter, Finset.mem_Ico, Finset.mem_singleton, numgenDrop,
      beq_iff_eq]
    constructor
    · rintro ⟨⟨hlo, hhi⟩, hmod⟩
      have ht : j - m * N < N := by omega
      have h1 : (j - m * N) + m * N = j := by omega
      have h2 : j % N = (j - m * N) % N := by
        conv_lhs => rw [← h1]
        exact Nat.add_mul_mod_self_right _ _ _
      have h3 : (j - m * N) % N = j - m * N := Nat.mod_eq_of_lt ht
      omega
    · rintro rfl
      refine ⟨⟨by omega, by omega⟩, ?_⟩
      rw [show m * N + k = k + m * N by omega, Nat.add_mul_mod_self_right,
        Nat.mod_eq_of_lt hk]
  rw [hset, Finset.card_singleton]

/-- Claim C1: for a requested drop probability p the trial installs the
packet-filter rule numgen inc mod N == k with N = round(1/p) and k = N - 1,
and that rule drops exactly one packet in every window of N consecutive
packets evaluated by it. -/
theorem c1_deterministic_loss_filter (r p : ℚ) (N m : Nat)
    (_hN : lossFilterModulus p = (N : ℤ)) (hpos : 1 ≤ N) :
    TrialCmd.nftAddRuleNumgenDrop (round p⁻¹) (round p⁻¹ - 1) ∈ simulateNewSetupCmds r p ∧
    ((Finset.Ico (m * N) (m * N + N)).filter
        (fun j => numgenDrop N (N - 1) j = true)).card = 1 := by
  exact ⟨by simp [simulateNewSetupCmds], numgen_window N (N - 1) m (by omega)⟩

theorem c1_deterministic_loss_filter_witness :
    TrialCmd.nftAddRuleNumgenDrop (round ((1 / 10 : ℚ))⁻¹) (round ((1 / 10 : ℚ))⁻¹ - 1)
        ∈ simulateNewSetupCmds (1 / 100) (1 / 10) ∧
    ((Finset.Ico (2 * 10) (2 * 10 + 10)).filter
        (fun j => numgenDrop 10 (10 - 1) j = true)).card = 1 :=
  c1_deterministic_loss_filter (1 / 100) (1 / 10) 10 2
    (by norm_num [lossFilterModulus, round_eq]) (by decide)

/-- Claim C2, counterexample: a snapshot-mode trial in which no write ever
blocks (five completed writes and then the 60-second deadline) returns an
empty measurement sequence, while the claim predicts
floor(duration / interval) = 60 * 1000 / 100 = 600 samples, plus or minus
one; 0 is not within one of 600. -/
theorem c2_fixed_cadence_counterexample :
    (simulate_new (1 / 100) (1 / 10) envTrialOk (List.replicate 5 WriteEvent.ok)).1 =
      Except.ok ([] : List Measurement) ∧
    trialSecs * 1000 / wouldBlockWaitMillis = 600 ∧
    ¬ (600 - 1 ≤ ([] : List Measurement).length) := by
  refine ⟨rfl, by decide, by decide⟩

/-- Claim C2, amended: in counter mode the sampler records exactly one
delta per sampling tick, hence an interleaving with CNT ticks yields
exactly CNT = floor(TOT / LEN) recorded samples; in snapshot mode the
trial returns one measurement per would-block event with a successful
probe, a count unrelated to duration / interval. -/
theorem c2_sample_count_by_mode (ops : List CounterOp) (trace : List WriteEvent) :
    (countSamples ops = CNT → (runCounter ops).recorded.length = CNT) ∧
    ⌊TOT / LEN⌋ = (CNT : ℤ) ∧
    ((∀ ev ∈ trace, goodEvent ev = true) →
      ∃ out, transferLoop trace 0 [] = .ok out ∧ out.length = countWouldBlock trace) := by
  refine ⟨?_, ?_, ?_⟩
  · intro h
    have := runCounter_recorded_length ops ⟨0, [], 0⟩
    simpa [runCounter, h] using this
  · have hq : TOT / LEN = (200 : ℚ) := by norm_num [TOT, LEN, CNT]
    rw [hq, CNT]
    exact_mod_cast Int.floor_intCast 200
  · intro h
    obtain ⟨out, hout, hlen⟩ := transferLoop_good_run trace 0 [] h
    exact ⟨out, hout, by simpa using hlen⟩

set_option maxRecDepth 8000 in
theorem c2_sample_count_by_mode_witness :
    (runCounter (List.replicate 200 CounterOp.sample)).recorded.length = CNT ∧
    (∃ out, transferLoop [WriteEvent.ok, WriteEvent.wouldBlock (Except.ok 3)] 0 [] = .ok out ∧
      out.length = countWouldBlock [WriteEvent.ok, WriteEvent.wouldBlock (Except.ok 3)]) := by
  have h := c2_sample_count_by_mode (List.replicate 200 CounterOp.sample)
    [WriteEvent.ok, WriteEvent.wouldBlock (Except.ok 3)]
  exact ⟨h.1 (by decide), h.2.2 (by decide)⟩

/-- Claim C3: over every interleaving of the two permitted atomic
operations on the shared byte counter (add by the transfer path, sample,
i.e. exchange-with-zero, by the sampler), the sum of the recorded interval
deltas plus the residue still in the counter equals the total bytes
transferred; hence no byte is double-counted or dropped across tick
boundaries, and the recorded sum is exact up to the final incomplete
tick. -/
theorem c3_counter_conservation (ops : List CounterOp) :
    (runCounter ops).recorded.sum + (runCounter ops).counter = (runCounter ops).total :=
  runCounter_conservation ops ⟨0, [], 0⟩ (by simp)

/-- Claim C4, code evidence: with every external command succeeding, a
trial whose transfer loop fails with a non-would-block write error
propagates the error immediately; the issued-step log is exactly the setup
steps, so neither the tc qdisc del nor the nft flush ruleset teardown is
ever attempted, although the netem delay rule and the nft filter rules had
been applied. -/
theorem c4_error_skips_rule_removal :
    simulate_new (1 / 100) (1 / 10) envTrialOk [WriteEvent.fatal "Connection reset by peer"]
      = (.error "Connection reset by peer", simulateNewSetupCmds (1 / 100) (1 / 10)) ∧
    TrialCmd.tcNetemDelayAdd (1 / 100) ∈ simulateNewSetupCmds (1 / 100) (1 / 10) ∧
    TrialCmd.tcNetemDelayDel (1 / 100) ∉ simulateNewSetupCmds (1 / 100) (1 / 10) ∧
    TrialCmd.nftFlushRuleset ∉ simulateNewSetupCmds (1 / 100) (1 / 10) := by
  refine ⟨rfl, by simp [simulateNewSetupCmds], by simp [simulateNewSetupCmds],
    by simp [simulateNewSetupCmds]⟩

/-- Claim C5, code evidence: the connection-state read accepts a reply in
which the kernel wrote back length 0 (nothing initialized) as long as the
return code is zero, handing back the untouched buffer; the returned
length is never compared with the 104-byte expected size of the
fixed-layout structure. -/
theorem c5_length_never_validated :
    TcpInfo.read ⟨0, 0, zeroTcpInfo⟩ = Except.ok zeroTcpInfo ∧
    (0 : Nat) ≠ tcpInfoSize ∧ tcpInfoSize = 104 := by
  refine ⟨rfl, by decide, by decide⟩

/-- Claim C6: in the transfer loop a would-block failure with a successful
probe continues the loop (the write is retried on the next iteration after
the bounded wait), a write failure of any other kind propagates as the
trial error, a failing probe propagates likewise, a trace free of both
completes successfully, and the outcome of topology construction is
unaffected by the results of the ignored teardown deletions. -/
theorem c6_write_error_handling (pre rest trace : List WriteEvent) (segcnt cwnd : Nat)
    (ms : List Measurement) (e : Err) (env env' : InitCmd → Except Err Unit) :
    (transferLoop (WriteEvent.wouldBlock (Except.ok cwnd) :: rest) segcnt ms =
        transferLoop rest segcnt (ms ++ [⟨segcnt * 1460, cwnd⟩])) ∧
    ((∀ ev ∈ pre, goodEvent ev = true) →
        transferLoop (pre ++ WriteEvent.fatal e :: rest) segcnt ms = .error e) ∧
    ((∀ ev ∈ pre, goodEvent ev = true) →
        transferLoop (pre ++ WriteEvent.wouldBlock (Except.error e) :: rest) segcnt ms
          = .error e) ∧
    ((∀ ev ∈ trace, goodEvent ev = true) →
        ∃ out, transferLoop trace segcnt ms = .ok out) ∧
    ((∀ p ∈ initSteps, p.2 = false → env p.1 = env' p.1) → init_new env = init_new env') := by
  refine ⟨rfl, ?_, ?_, ?_, ?_⟩
  · intro h
    obtain ⟨s', m', hm⟩ := transferLoop_good_then pre segcnt ms (WriteEvent.fatal e :: rest) h
    rw [hm]; rfl
  · intro h
    obtain ⟨s', m', hm⟩ := transferLoop_good_then pre segcnt ms
      (WriteEvent.wouldBlock (Except.error e) :: rest) h
    rw [hm]; rfl
  · intro h
    obtain ⟨out, hout, _⟩ := transferLoop_good_run trace segcnt ms h
    exact ⟨out, hout⟩
  · exact runSteps_congr env env' initSteps

theorem c6_write_error_handling_witness :
    transferLoop ([WriteEvent.ok] ++ WriteEvent.fatal "Broken pipe" :: []) 0 []
      = .error "Broken pipe" ∧
    init_new envAllOk = init_new envDeleteFails := by
  have h := c6_write_error_handling [WriteEvent.ok] [] [WriteEvent.ok] 0 7 []
    "Broken pipe" envAllOk envDeleteFails
  exact ⟨h.2.1 (by decide), h.2.2.2.2 (by decide)⟩

/-- Claim C7: whenever apply succeeds on an endpoint, the prior shaping
state was empty, the installed root qdisc is exactly the rendered netem
rule, and the matching remove deletes exactly that rule, restoring the
shaping state that preceded the apply; the add and del commands are
rendered from the same rule text. -/
theorem c7_apply_remove_roundtrip (impairment quantity : String) (s s' : QdiscState)
    (h : tcApply impairment quantity s = .ok s') :
    s = none ∧ s' = some (netemRule impairment quantity) ∧
    tcRemove impairment quantity s' = .ok s ∧
    applyCmd impairment quantity
      = "tc qdisc add dev server root " ++ netemRule impairment quantity ∧
    removeCmd impairment quantity
      = "tc qdisc del dev server root " ++ netemRule impairment quantity := by
  cases s with
  | none =>
    simp only [tcApply, tcAdd, Except.ok.injEq] at h
    subst h
    exact ⟨rfl, rfl, by simp [tcRemove, tcDel], rfl, rfl⟩
  | some r => simp [tcApply, tcAdd] at h

theorem c7_apply_remove_roundtrip_witness :
    tcRemove "delay" "10ms" (some (netemRule "delay" "10ms")) = .ok none :=
  (c7_apply_remove_roundtrip "delay" "10ms" none (some (netemRule "delay" "10ms")) rfl).2.2.1

set_option maxRecDepth 8000 in
/-- Claim C8, code evidence: the would-block wait of the transfer loop and
the tick wait of the counter-mode sampler are loops polling the clock with
an empty body.  Against a clock advancing one millisecond per poll, the
100 ms would-block wait polls the clock 101 times and the 50 ms sampler
tick (LEN seconds) polls 51 times, i.e. the loop body runs once per clock
tick instead of suspending once, confirming a busy-wait rather than a
timed suspension. -/
theorem c8_wait_is_busy_loop :
    spinPolls (fun i => i) wouldBlockWaitMillis 1000 = 101 ∧
    spinPolls (fun i => i) 50 1000 = 51 ∧
    (LEN * 1000 : ℚ) = 50 ∧
    1 < spinPolls (fun i => i) wouldBlockWaitMillis 1000 := by
  refine ⟨by decide, by decide, by norm_num [LEN], by decide⟩

/-- Claim C9: topology construction first issues the two namespace
deletions; its outcome is independent of the deletion results (absence is
success); it succeeds when every required creation step succeeds; and the
first failing required step aborts construction, with the underlying error
propagated and no later step issued. -/
theorem c9_topology_build (env env' : InitCmd → Except Err Unit)
    (pre rest : List (InitCmd × Bool)) (c : InitCmd) (e : Err) :
    ((init_new env).2.take 2
      = [InitCmd.netnsDelete "server", InitCmd.netnsDelete "client"]) ∧
    ((∀ c₀, isDelete c₀ = false → env c₀ = env' c₀) → init_new env = init_new env') ∧
    ((∀ p ∈ initSteps, p.2 = false → env p.1 = .ok ()) → (init_new env).1 = .ok ()) ∧
    (initSteps = pre ++ (c, false) :: rest →
      (∀ p ∈ pre, p.2 = false → env p.1 = .ok ()) → env c = .error e →
      init_new env = (.error e, pre.map Prod.fst ++ [c])) := by
  refine ⟨?_, ?_, ?_, ?_⟩
  · show (runSteps env initSteps).2.take 2 = _
    rw [initSteps, runSteps_ignored_cons, runSteps_ignored_cons]
    rfl
  · intro hagree
    apply runSteps_congr
    intro p hp hreq
    have hnd : ∀ q ∈ initSteps, q.2 = false → isDelete q.1 = false := by decide
    exact hagree p.1 (hnd p hp hreq)
  · exact runSteps_all_ok env initSteps
  · intro hsteps hpre hc
    rw [init_new, hsteps]
    exact runSteps_first_err env c e rest hc pre hpre

set_option maxRecDepth 8000 in
theorem c9_topology_build_witness :
    (init_new envDeleteFails).1 = .ok () ∧
    init_new envLinkFails = (.error "RTNETLINK answers: Operation not supported",
      [InitCmd.netnsDelete "server", InitCmd.netnsDelete "client",
       InitCmd.netnsAdd "server", InitCmd.netnsAdd "client", InitCmd.linkAddVethPair]) ∧
    (init_new envAllOk).2.take 2
      = [InitCmd.netnsDelete "server", InitCmd.netnsDelete "client"] ∧
    init_new envAllOk = init_new envDeleteFails := by
  have h1 := c9_topology_build envDeleteFails envDeleteFails [] [] InitCmd.linkAddVethPair ""
  have h2 := c9_topology_build envLinkFails envLinkFails
    [(InitCmd.netnsDelete "server", true), (InitCmd.netnsDelete "client", true),
     (InitCmd.netnsAdd "server", false), (InitCmd.netnsAdd "client", false)]
    [(InitCmd.addrAdd "server" "10.1.1.1/24", false),
     (InitCmd.addrAdd "client" "10.1.1.2/24", false),
     (InitCmd.linkSetUpMtu "server" 1500, false),
     (InitCmd.linkSetUpMtu "client" 1500, false),
     (InitCmd.ethtoolTsoOff "server", false),
     (InitCmd.ethtoolTsoOff "client", false),
     (InitCmd.setnsEnter "server", false),
     (InitCmd.bindListener "10.1.1.1:1234", false),
     (InitCmd.setnsEnter "client", false)]
    InitCmd.linkAddVethPair "RTNETLINK answers: Operation not supported"
  have h3 := c9_topology_build envAllOk envDeleteFails [] [] InitCmd.linkAddVethPair ""
  refine ⟨h1.2.2.1 (by decide), ?_, h3.1, ?_⟩
  · have := h2.2.2.2 (by decide) (by decide) rfl
    simpa using this
  · exact h3.2.1 (fun c₀ hc₀ => by simp [envAllOk, envDeleteFails, hc₀])

/-- Claim C10: every measurement sequence returned by a snapshot-mode trial
has monotonically non-decreasing cumulative bytes_transferred, each an
exact multiple of the 1460-byte frame size, because the field is derived
solely from the count of completed fixed-size writes. -/
theorem c10_snapshot_monotone_frames (trace : List WriteEvent) (out : List Measurement)
    (h : transferLoop trace 0 [] = .ok out) :
    List.Pairwise (fun a b => a.bytes_transferred ≤ b.bytes_transferred) out ∧
    ∀ m ∈ out, 1460 ∣ m.bytes_transferred := by
  have hinv := transferLoop_invariant trace 0 [] out h (by simp) (by simp) (by simp)
  exact ⟨hinv.2, hinv.1⟩

theorem c10_snapshot_monotone_frames_witness :
    List.Pairwise (fun a b => a.bytes_transferred ≤ b.bytes_transferred)
      [(⟨1460, 5⟩ : Measurement), ⟨2920, 7⟩] ∧
    ∀ m ∈ [(⟨1460, 5⟩ : Measurement), ⟨2920, 7⟩], 1460 ∣ m.bytes_transferred :=
  c10_snapshot_monotone_frames
    [WriteEvent.ok, WriteEvent.wouldBlock (Except.ok 5), WriteEvent.ok,
     WriteEvent.wouldBlock (Except.ok 7)] [⟨1460, 5⟩, ⟨2920, 7⟩] (by rfl)

end Csee
